import Mathlib

/-!
Verification of the Sound-Explores front-end against its specification.

The JavaScript sources are shallowly embedded: every pure computation of the
repository is translated to an executable Lean definition, JavaScript string
builtins (`toLowerCase`, `trim`, `includes`, `replace(/\s+/g,"")`) are modelled
over `String`/`List Char`, asynchronous outcomes (metadata load events, HTTP
results, backend error payloads) are made explicit parameters, and DOM/toast
side effects are reified as values.
-/

namespace SoundExplores

/-! ## JavaScript string builtins, modelled -/

/-- Code points matched by the character class `\s` of JavaScript regular
expressions: ASCII whitespace, NBSP, the Unicode space separators,
line/paragraph separators and the BOM. -/
def jsWhitespaceCode (n : Nat) : Bool :=
  n == 32 || n == 9 || n == 10 || n == 11 || n == 12 || n == 13 ||
  n == 160 || n == 0x1680 || (0x2000 ≤ n && n ≤ 0x200a) ||
  n == 0x2028 || n == 0x2029 || n == 0x202f || n == 0x205f ||
  n == 0x3000 || n == 0xfeff

/-- Model of the character class `\s` of JavaScript regular expressions. -/
def jsWhitespaceChar (c : Char) : Bool :=
  jsWhitespaceCode c.toNat

/-- Model of `String.prototype.toLowerCase` on a single code point, restricted
to the basic latin range that the repository's data uses: `A`–`Z` (code points
65–90) map 32 code points up, everything else is fixed. -/
def jsLowerChar (c : Char) : Char :=
  if 65 ≤ c.toNat ∧ c.toNat ≤ 90 then Char.ofNat (c.toNat + 32) else c

/-- Model of `String.prototype.toLowerCase`. -/
def jsToLowerCase (s : String) : String :=
  String.mk (s.data.map jsLowerChar)

/-- Model of `val.replace(/\s+/g, "")`: delete every `\s` character. -/
def jsStripWhitespace (s : String) : String :=
  String.mk (s.data.filter (fun c => !jsWhitespaceChar c))

/-- Model of `String.prototype.trim`: drop `\s` characters from both ends. -/
def jsTrim (s : String) : String :=
  String.mk
    (((s.data.dropWhile jsWhitespaceChar).reverse.dropWhile
      jsWhitespaceChar).reverse)

/-- Model of `hay.includes(needle)` on the underlying character lists. -/
def jsIncludesAux (needle : List Char) : List Char → Bool
  | [] => needle.isEmpty
  | c :: rest => needle.isPrefixOf (c :: rest) || jsIncludesAux needle rest

/-- Model of `hay.includes(needle)` for strings. -/
def jsIncludes (hay needle : String) : Bool :=
  jsIncludesAux needle.data hay.data

/-! ## The sound data model (`SoundList.jsx`, `formattedSounds` shape) -/

/-- A list item as built in the `useEffect` of `SoundList.jsx`: fields `id`,
`name`, `description`, `category`, `isPremium`, `link`, `duration`,
`selected`, `isPlaying`. -/
structure Sound where
  id : String
  name : String
  description : String
  category : String
  isPremium : Bool
  link : String
  duration : String
  selected : Bool
  isPlaying : Bool
deriving DecidableEq, Inhabited

/-! ## C3: `applySearch` (`SoundList.jsx` lines 371–380) -/

/-- Embedding of `applySearch`, returning the new `filteredSounds` state.
The guard mirrors `!term || !term.trim()` (empty or whitespace-only term). -/
def applySearch (term : String) (soundList : List Sound) : List Sound :=
  if term = "" ∨ jsTrim term = "" then
    soundList
  else
    soundList.filter (fun sound =>
      jsIncludes (jsToLowerCase sound.name) (jsToLowerCase term))

/-! ### Correctness of the substring model -/

theorem jsIncludesAux_iff (needle hay : List Char) :
    jsIncludesAux needle hay = true ↔ ∃ l r, hay = l ++ needle ++ r := by
  induction hay with
  | nil =>
    simp only [jsIncludesAux, List.isEmpty_iff]
    constructor
    · rintro rfl
      exact ⟨[], [], rfl⟩
    · rintro ⟨l, r, h⟩
      rcases List.append_eq_nil.mp (List.append_eq_nil.mp h.symm).1 with ⟨_, h2⟩
      exact h2
  | cons c rest ih =>
    simp only [jsIncludesAux, Bool.or_eq_true, ih]
    constructor
    · rintro (h | ⟨l, r, rfl⟩)
      · rcases List.isPrefixOf_iff_prefix.mp h with ⟨r, hr⟩
        exact ⟨[], r, by simpa using hr.symm⟩
      · exact ⟨c :: l, r, rfl⟩
    · rintro ⟨l, r, h⟩
      cases l with
      | nil =>
        left
        exact List.isPrefixOf_iff_prefix.mpr ⟨r, by simpa using h.symm⟩
      | cons x xs =>
        right
        refine ⟨xs, r, ?_⟩
        have h2 := h
        simp only [List.cons_append] at h2
        exact (List.cons_eq_cons.mp h2).2

theorem jsIncludes_iff (hay needle : String) :
    jsIncludes hay needle = true ↔
      ∃ l r, hay.data = l ++ needle.data ++ r :=
  jsIncludesAux_iff needle.data hay.data

/-- A sample sound used to instantiate theorems at concrete inputs. -/
def sampleDog : Sound :=
  { id := "s1", name := "Dog Bark", description := "a dog", category := "pets",
    isPremium := false, link := "/audio/dog.mp3", duration := "00:00",
    selected := false, isPlaying := false }

/-- A second sample sound used to instantiate theorems at concrete inputs. -/
def sampleCat : Sound :=
  { id := "s2", name := "Cat Meow", description := "a cat", category := "pets",
    isPremium := true, link := "/audio/cat.mp3", duration := "00:07",
    selected := false, isPlaying := false }

/-- C3: the sound list is filtered by case-insensitive substring match on the
sound name: for an empty or whitespace-only term `applySearch` keeps the whole
list, and otherwise it keeps exactly the sounds whose lowercased name contains
the lowercased term as a contiguous substring. -/
theorem applySearch_filters_by_substring (term : String) (soundList : List Sound) :
    (term = "" ∨ jsTrim term = "" → applySearch term soundList = soundList) ∧
    (¬(term = "" ∨ jsTrim term = "") →
      ∀ s : Sound, s ∈ applySearch term soundList ↔
        s ∈ soundList ∧
          ∃ l r, (jsToLowerCase s.name).data =
            l ++ (jsToLowerCase term).data ++ r) := by
  constructor
  · intro h
    simp [applySearch, h]
  · intro h s
    rw [applySearch, if_neg h, List.mem_filter]
    exact and_congr_right fun _ => jsIncludes_iff _ _

theorem applySearch_filters_by_substring_witness :
    sampleDog ∈ applySearch "OG" [sampleDog, sampleCat] ∧
      applySearch " " [sampleDog, sampleCat] = [sampleDog, sampleCat] := by
  constructor
  · exact ((applySearch_filters_by_substring "OG" [sampleDog, sampleCat]).2
      (by decide) sampleDog).mpr
      ⟨by decide, [Char.ofNat 100], [Char.ofNat 32, Char.ofNat 98,
        Char.ofNat 97, Char.ofNat 114, Char.ofNat 107], by decide⟩
  · exact (applySearch_filters_by_substring " " [sampleDog, sampleCat]).1
      (Or.inr (by decide))

/-! ## C9: `formatDuration` (`SoundList.jsx` lines 186–192) -/

/-- Truncation toward zero on rationals, as JavaScript division-based
remainders use. -/
def jsTruncQ (q : ℚ) : ℤ :=
  if 0 ≤ q then ⌊q⌋ else ⌈q⌉

/-- Model of the JavaScript remainder `a % b`: `a - b * trunc (a / b)`. -/
def jsRem (a b : ℚ) : ℚ :=
  a - b * (jsTruncQ (a / b) : ℚ)

/-- Model of `s.padStart(n, c)`. -/
def padStart (s : String) (n : Nat) (c : Char) : String :=
  String.mk (List.replicate (n - s.length) c) ++ s

/-- Embedding of `formatDuration`: minutes are `Math.floor(seconds / 60)`,
remaining seconds are `Math.floor(seconds % 60)`, both rendered in decimal and
left-padded with `"0"` to two characters, joined by `":"`. -/
def formatDuration (seconds : ℚ) : String :=
  let minutes : ℤ := ⌊seconds / 60⌋
  let remainingSeconds : ℤ := ⌊jsRem seconds 60⌋
  padStart (toString minutes) 2 (Char.ofNat 48) ++ ":" ++
    padStart (toString remainingSeconds) 2 (Char.ofNat 48)

theorem padStart_length (s : String) (n : Nat) (c : Char) :
    (padStart s n c).length = max n s.length := by
  simp only [padStart, String.length_append, String.length_mk,
    List.length_replicate]
  omega

theorem int_toString_length_le_two :
    ∀ n : Nat, n < 60 → (toString ((n : ℕ) : ℤ)).length ≤ 2 := by decide

/-- C9: for every non-negative rational number of seconds, `formatDuration`
returns `MM:SS` with `MM = ⌊seconds / 60⌋` and `SS = ⌊seconds % 60⌋`, each
zero-padded to at least two characters, and `SS` lies between 0 and 59 (so its
two-character rendering is between `"00"` and `"59"`). -/
theorem formatDuration_shape (q : ℚ) (hq : 0 ≤ q) :
    formatDuration q =
      padStart (toString (⌊q / 60⌋ : ℤ)) 2 (Char.ofNat 48) ++ ":" ++
        padStart (toString (⌊jsRem q 60⌋ : ℤ)) 2 (Char.ofNat 48) ∧
    0 ≤ ⌊jsRem q 60⌋ ∧ ⌊jsRem q 60⌋ ≤ 59 ∧
    (padStart (toString (⌊jsRem q 60⌋ : ℤ)) 2 (Char.ofNat 48)).length = 2 ∧
    2 ≤ (padStart (toString (⌊q / 60⌋ : ℤ)) 2 (Char.ofNat 48)).length := by
  have hdiv : (0 : ℚ) ≤ q / 60 := by positivity
  have htrunc : jsTruncQ (q / 60) = ⌊q / 60⌋ := if_pos hdiv
  have hrem : jsRem q 60 = q - 60 * (⌊q / 60⌋ : ℚ) := by
    rw [jsRem, htrunc]
  have hrem_nonneg : 0 ≤ jsRem q 60 := by
    rw [hrem]
    have h1 : (⌊q / 60⌋ : ℚ) ≤ q / 60 := Int.floor_le _
    nlinarith
  have hrem_lt : jsRem q 60 < 60 := by
    rw [hrem]
    have h2 : q / 60 < ⌊q / 60⌋ + 1 := Int.lt_floor_add_one _
    nlinarith
  have hfloor_nonneg : 0 ≤ ⌊jsRem q 60⌋ := Int.floor_nonneg.mpr hrem_nonneg
  have hfloor_le : ⌊jsRem q 60⌋ ≤ 59 := by
    have := Int.floor_lt.mpr (show jsRem q 60 < ((60 : ℤ) : ℚ) by
      exact_mod_cast hrem_lt)
    omega
  refine ⟨rfl, hfloor_nonneg, hfloor_le, ?_, ?_⟩
  · have hlen : (toString (⌊jsRem q 60⌋ : ℤ)).length ≤ 2 := by
      have h1 : (((⌊jsRem q 60⌋).toNat : ℕ) : ℤ) = ⌊jsRem q 60⌋ :=
        Int.toNat_of_nonneg hfloor_nonneg
      have h2 : (⌊jsRem q 60⌋).toNat < 60 := by omega
      rw [← h1]
      exact int_toString_length_le_two _ h2
    rw [padStart_length]
    omega
  · rw [padStart_length]
    omega

theorem formatDuration_shape_witness :
    (0 : ℚ) ≤ 125 / 2 ∧
      (formatDuration (125 / 2) =
        padStart (toString (⌊(125 : ℚ) / 2 / 60⌋ : ℤ)) 2 (Char.ofNat 48) ++ ":" ++
          padStart (toString (⌊jsRem ((125 : ℚ) / 2) 60⌋ : ℤ)) 2 (Char.ofNat 48) ∧
      0 ≤ ⌊jsRem ((125 : ℚ) / 2) 60⌋ ∧ ⌊jsRem ((125 : ℚ) / 2) 60⌋ ≤ 59 ∧
      (padStart (toString (⌊jsRem ((125 : ℚ) / 2) 60⌋ : ℤ)) 2
        (Char.ofNat 48)).length = 2 ∧
      2 ≤ (padStart (toString (⌊(125 : ℚ) / 2 / 60⌋ : ℤ)) 2
        (Char.ofNat 48)).length) :=
  ⟨by norm_num, formatDuration_shape (125 / 2) (by norm_num)⟩

/-! ## C7: `handlePageChange` (`SoundList.jsx` lines 382–384) -/

/-- The `useState` pieces of `SoundList` touched by search, selection and
pagination. -/
structure SoundListState where
  sounds : List Sound
  filteredSounds : List Sound
  searchTerm : String
  selectedSounds : List String
  currentPage : Nat
  totalPages : Nat
deriving DecidableEq

/-- Embedding of `handlePageChange`: it only calls `setCurrentPage(page)`. -/
def handlePageChange (page : Nat) (st : SoundListState) : SoundListState :=
  { st with currentPage := page }

/-- C7: `handlePageChange` sets the current page to the given number and
leaves the sounds, filtered sounds, search term, selection and total pages
unchanged. -/
theorem handlePageChange_frame (page : Nat) (st : SoundListState) :
    (handlePageChange page st).currentPage = page ∧
    (handlePageChange page st).sounds = st.sounds ∧
    (handlePageChange page st).filteredSounds = st.filteredSounds ∧
    (handlePageChange page st).searchTerm = st.searchTerm ∧
    (handlePageChange page st).selectedSounds = st.selectedSounds ∧
    (handlePageChange page st).totalPages = st.totalPages :=
  ⟨rfl, rfl, rfl, rfl, rfl, rfl⟩

/-! ## C4: error toasts (`useConnections.js` `useGetAllUsers`,
`SoundList.jsx` `downloadSound`) -/

/-- Model of the JavaScript `x || fallback` idiom on an optional string:
`undefined` and `""` are falsy. -/
def jsOr (m : Option String) (fallback : String) : String :=
  match m with
  | some s => if s = "" then fallback else s
  | none => fallback

/-- A toast notification shown to the user. -/
inductive ToastEvent where
  | success (msg : String)
  | error (msg : String)
deriving DecidableEq

/-- Outcome of the `fetch` inside `downloadSound`: an OK response, a non-OK
response, or a rejected fetch. -/
inductive DownloadResult where
  | ok
  | httpNotOk
  | fetchFailed
deriving DecidableEq

/-- Embedding of `downloadSound`: unsubscribed users get an upgrade toast and
no fetch happens; a non-OK response throws `Error("Download failed")`, and the
catch block toasts `"Failed to download sound. Please try again."`; an OK
response toasts success. The returned list is the toasts shown, in order. -/
def downloadSound (isSubscribed : Bool) (soundName : String)
    (res : DownloadResult) : List ToastEvent :=
  if !isSubscribed then
    [ToastEvent.error "Please upgrade to premium to download sounds!"]
  else
    match res with
    | .ok => [ToastEvent.success
        ("\"" ++ soundName ++ "\" downloaded successfully!")]
    | .httpNotOk =>
        [ToastEvent.error "Failed to download sound. Please try again."]
    | .fetchFailed =>
        [ToastEvent.error "Failed to download sound. Please try again."]

/-- The message of the `Error` thrown inside `downloadSound` when the HTTP
response is not OK (it is logged, not toasted). -/
def downloadThrownMessage : DownloadResult → Option String
  | .httpNotOk => some "Download failed"
  | _ => none

/-- Embedding of the `onError` toast of `useGetAllUsers`:
`error.response?.data?.message || "Failed to fetch users"`. -/
def fetchUsersErrorToast (backendMessage : Option String) : String :=
  jsOr backendMessage "Failed to fetch users"

/-- C4 counterexample: on a failed download the toast shown is
`"Failed to download sound. Please try again."`; no toast with the spec's
example text `"Download failed"` is shown. -/
theorem downloadSound_toast_counterexample :
    downloadSound true "Dog Bark" DownloadResult.httpNotOk =
      [ToastEvent.error "Failed to download sound. Please try again."] ∧
    ToastEvent.error "Download failed" ∉
      downloadSound true "Dog Bark" DownloadResult.httpNotOk := by
  decide

/-- C4 (amended): when fetching all users fails the toast is the backend
message, or `"Failed to fetch users"` when it is absent; when a download fails
for a subscribed user (non-OK response or fetch error) the toast is
`"Failed to download sound. Please try again."`, while `"Download failed"` is
only the internally thrown error message on a non-OK response. -/
theorem network_error_toasts (backendMessage : Option String)
    (soundName : String) (res : DownloadResult) :
    (backendMessage = none →
      fetchUsersErrorToast backendMessage = "Failed to fetch users") ∧
    (∀ s, s ≠ "" → backendMessage = some s →
      fetchUsersErrorToast backendMessage = s) ∧
    (res ≠ DownloadResult.ok →
      downloadSound true soundName res =
        [ToastEvent.error "Failed to download sound. Please try again."]) ∧
    (res = DownloadResult.httpNotOk →
      downloadThrownMessage res = some "Download failed") := by
  refine ⟨?_, ?_, ?_, ?_⟩
  · rintro rfl
    rfl
  · rintro s hs rfl
    simp [fetchUsersErrorToast, jsOr, hs]
  · intro hres
    cases res with
    | ok => exact absurd rfl hres
    | httpNotOk => rfl
    | fetchFailed => rfl
  · rintro rfl
    rfl

theorem network_error_toasts_witness :
    fetchUsersErrorToast none = "Failed to fetch users" ∧
    fetchUsersErrorToast (some "Boom") = "Boom" ∧
    downloadSound true "Dog Bark" DownloadResult.fetchFailed =
      [ToastEvent.error "Failed to download sound. Please try again."] ∧
    downloadThrownMessage DownloadResult.httpNotOk = some "Download failed" :=
  ⟨(network_error_toasts none "x" DownloadResult.ok).1 rfl,
   (network_error_toasts (some "Boom") "x" DownloadResult.ok).2.1 "Boom"
     (by decide) rfl,
   (network_error_toasts none "Dog Bark" DownloadResult.fetchFailed).2.2.1
     (by decide),
   (network_error_toasts none "x" DownloadResult.httpNotOk).2.2.2 rfl⟩

/-! ## C6: `useGetAllUsers` query construction (`useConnections.js`) -/

/-- Filters accepted by `useGetAllUsers`. -/
structure UserFilters where
  search : Option String
  page : Option Nat
  limit : Option Nat
deriving DecidableEq

/-- Embedding of the three `if (filters.x) params.append(...)` statements:
an append runs exactly when the filter value is truthy (a non-empty string, a
non-zero number). -/
def filterParams (f : UserFilters) : List (String × String) :=
  (match f.search with
   | some s => if s = "" then [] else [("search", s)]
   | none => []) ++
  (match f.page with
   | some p => if p = 0 then [] else [("page", toString p)]
   | none => []) ++
  (match f.limit with
   | some l => if l = 0 then [] else [("limit", toString l)]
   | none => [])

/-- Model of `URLSearchParams.toString` for the URL-safe keys and values used
here (percent-encoding is the identity on them): `k=v` pairs joined by `&`. -/
def searchParamsToString : List (String × String) → String
  | [] => ""
  | [kv] => kv.1 ++ "=" ++ kv.2
  | kv :: kv2 :: rest =>
    kv.1 ++ "=" ++ kv.2 ++ "&" ++ searchParamsToString (kv2 :: rest)

/-- Embedding of the URL passed to `apiClient.get` by `useGetAllUsers`:
`/user/get-all-user` followed by `?` and the parameters only when
`params.toString()` is non-empty. -/
def getAllUsersUrl (f : UserFilters) : String :=
  let query := searchParamsToString (filterParams f)
  "/user/get-all-user" ++ (if query = "" then "" else "?" ++ query)

theorem searchParamsToString_cons_length (kv : String × String)
    (rest : List (String × String)) :
    1 ≤ (searchParamsToString (kv :: rest)).length := by
  have heq : ("=" : String).length = 1 := rfl
  cases rest with
  | nil =>
    simp only [searchParamsToString, String.length_append, heq]
    omega
  | cons kv2 rest2 =>
    simp only [searchParamsToString, String.length_append, heq]
    omega

theorem searchParamsToString_eq_empty_iff (ps : List (String × String)) :
    searchParamsToString ps = "" ↔ ps = [] := by
  cases ps with
  | nil => simp [searchParamsToString]
  | cons kv rest =>
    simp only [iff_false, reduceCtorEq]
    intro h
    have hlen := searchParamsToString_cons_length kv rest
    rw [h] at hlen
    simp at hlen

/-- C6: the user-listing request goes to `/user/get-all-user`; `search`,
`page` and `limit` appear as query parameters exactly when the corresponding
filter is set (truthy), and when no filter is set the URL carries no query
string and no `?` at all. -/
theorem getAllUsersUrl_spec (f : UserFilters) :
    (∀ v, ("search", v) ∈ filterParams f ↔ f.search = some v ∧ v ≠ "") ∧
    (∀ v, ("page", v) ∈ filterParams f ↔
      ∃ n, f.page = some n ∧ n ≠ 0 ∧ v = toString n) ∧
    (∀ v, ("limit", v) ∈ filterParams f ↔
      ∃ n, f.limit = some n ∧ n ≠ 0 ∧ v = toString n) ∧
    (filterParams f = [] ↔
      f.search.getD "" = "" ∧ f.page.getD 0 = 0 ∧ f.limit.getD 0 = 0) ∧
    (filterParams f = [] → getAllUsersUrl f = "/user/get-all-user") ∧
    (filterParams f ≠ [] →
      getAllUsersUrl f = "/user/get-all-user" ++ "?" ++
        searchParamsToString (filterParams f)) := by
  obtain ⟨os, op, ol⟩ := f
  refine ⟨?_, ?_, ?_, ?_, ?_, ?_⟩
  · intro v
    rcases os with _ | s <;> rcases op with _ | p <;> rcases ol with _ | l <;>
      simp [filterParams] <;> (try split_ifs) <;> (try simp_all) <;> aesop
  · intro v
    rcases os with _ | s <;> rcases op with _ | p <;> rcases ol with _ | l <;>
      simp [filterParams] <;> (try split_ifs) <;> (try simp_all) <;> aesop
  · intro v
    rcases os with _ | s <;> rcases op with _ | p <;> rcases ol with _ | l <;>
      simp [filterParams] <;> (try split_ifs) <;> (try simp_all) <;> aesop
  · rcases os with _ | s <;> rcases op with _ | p <;> rcases ol with _ | l <;>
      simp [filterParams] <;> split_ifs <;> simp_all
  · intro h
    simp [getAllUsersUrl, h, searchParamsToString]
  · intro h
    have hq : searchParamsToString
        (filterParams { search := os, page := op, limit := ol }) ≠ "" :=
      fun hc => h ((searchParamsToString_eq_empty_iff _).mp hc)
    simp only [getAllUsersUrl, if_neg hq]
    rw [← String.append_assoc]

theorem getAllUsersUrl_spec_witness :
    (("search", "bob") ∈
        filterParams { search := some "bob", page := some 2, limit := none } ↔
      (some "bob" : Option String) = some "bob" ∧ "bob" ≠ "") ∧
    (filterParams { search := none, page := some 0, limit := none } = [] →
      getAllUsersUrl { search := none, page := some 0, limit := none } =
        "/user/get-all-user") ∧
    (filterParams { search := some "bob", page := some 2, limit := none } ≠ [] →
      getAllUsersUrl { search := some "bob", page := some 2, limit := none } =
        "/user/get-all-user" ++ "?" ++ searchParamsToString
          (filterParams { search := some "bob", page := some 2, limit := none })) :=
  ⟨(getAllUsersUrl_spec { search := some "bob", page := some 2, limit := none }).1
      "bob",
   (getAllUsersUrl_spec { search := none, page := some 0, limit := none }).2.2.2.2.1,
   (getAllUsersUrl_spec { search := some "bob", page := some 2, limit := none }).2.2.2.2.2⟩

/-! ## C2, C5, C10: the sign-up forms (`SignUp.jsx`, both variants) -/

/-- Input of the full sign-up form (`SignUp.jsx` with name and phone). -/
structure SignUpForm where
  fullName : String
  phone : String
  email : String
  password : String
  agreeToTerms : Bool
deriving DecidableEq

/-- Input of the simplified sign-up form (email, password, terms only). -/
structure SimpleSignUpInput where
  email : String
  password : String
  agreeToTerms : Bool
deriving DecidableEq

/-- Embedding of the email normalization used by the simplified schema and its
`onSubmit`: `val.replace(/\s+/g, "").toLowerCase()`. -/
def normalizeEmail (val : String) : String :=
  jsToLowerCase (jsStripWhitespace val)

/-- Embedding of the full `signUpSchema`: `fullName` at least 2 characters,
`phone` non-empty and accepted by the `isValidPhoneNumber` library check,
`email` accepted by the zod `.email()` library check, `password` at least 6
characters, `agreeToTerms` literally `true`. The two library checks are
abstract boolean parameters. -/
def signUpSchemaFullAccepts (phoneValid emailValid : String → Bool)
    (f : SignUpForm) : Bool :=
  decide (2 ≤ f.fullName.length) &&
    (decide (1 ≤ f.phone.length) && phoneValid f.phone) &&
    emailValid f.email &&
    decide (6 ≤ f.password.length) &&
    f.agreeToTerms

/-- Embedding of the simplified `signUpSchema` acceptance condition: `email`
accepted by zod's `.email()` (abstract parameter), `password` at least 6
characters, `agreeToTerms` literally `true`. -/
def signUpSchemaSimpleAccepts (emailValid : String → Bool)
    (f : SimpleSignUpInput) : Bool :=
  emailValid f.email && decide (6 ≤ f.password.length) && f.agreeToTerms

/-- Embedding of the simplified schema's parse: on success the `transform`
normalizes the email; on failure no value is produced. -/
def signUpSchemaSimpleParse (emailValid : String → Bool)
    (f : SimpleSignUpInput) : Option SimpleSignUpInput :=
  if signUpSchemaSimpleAccepts emailValid f then
    some { f with email := normalizeEmail f.email }
  else
    none

/-- Field errors reported by the simplified schema, with the messages from the
source: one entry per failing check. -/
def signUpSchemaSimpleErrors (emailValid : String → Bool)
    (f : SimpleSignUpInput) : List (String × String) :=
  (if emailValid f.email then [] else
    [("email", "Invalid email address")]) ++
  (if decide (6 ≤ f.password.length) then [] else
    [("password", "Password must be at least 6 characters")]) ++
  (if f.agreeToTerms then [] else
    [("agreeToTerms", "You must agree to the terms")])

/-- Model of react-hook-form's `handleSubmit` composed with the simplified
`onSubmit`: `onSubmit` runs only when the resolver accepts, and it passes
`{...data, email: data.email.replace(/\s+/g, "").toLowerCase()}` to `signUp`.
Returns the payload given to `signUp`, if any. -/
def handleSubmitSimple (emailValid : String → Bool)
    (f : SimpleSignUpInput) : Option SimpleSignUpInput :=
  match signUpSchemaSimpleParse emailValid f with
  | some d => some { d with email := normalizeEmail d.email }
  | none => none

/-! ### Character-level facts about the JS lowercase model -/

theorem char_toNat_ofNat {n : Nat} (h : n < 0xd800) :
    (Char.ofNat n).toNat = n := by
  have hv : n.isValidChar := Or.inl h
  rw [Char.ofNat, dif_pos hv]
  rfl

theorem jsLowerChar_toNat_of_upper {c : Char} (h1 : 65 ≤ c.toNat)
    (h2 : c.toNat ≤ 90) : (jsLowerChar c).toNat = c.toNat + 32 := by
  rw [jsLowerChar, if_pos ⟨h1, h2⟩, char_toNat_ofNat (by omega)]

theorem jsLowerChar_idem (c : Char) :
    jsLowerChar (jsLowerChar c) = jsLowerChar c := by
  by_cases h : 65 ≤ c.toNat ∧ c.toNat ≤ 90
  · have ht : (jsLowerChar c).toNat = c.toNat + 32 :=
      jsLowerChar_toNat_of_upper h.1 h.2
    have hnot : ¬(65 ≤ (jsLowerChar c).toNat ∧ (jsLowerChar c).toNat ≤ 90) := by
      rw [ht]
      omega
    exact if_neg hnot
  · have heq : jsLowerChar c = c := if_neg h
    rw [heq]
    exact heq

theorem jsWhitespaceCode_of_lower {n : Nat} (h1 : 97 ≤ n) (h2 : n ≤ 122) :
    jsWhitespaceCode n = false := by
  interval_cases n <;> decide

theorem jsLowerChar_not_ws {c : Char} (h : jsWhitespaceChar c = false) :
    jsWhitespaceChar (jsLowerChar c) = false := by
  by_cases hc : 65 ≤ c.toNat ∧ c.toNat ≤ 90
  · have ht := jsLowerChar_toNat_of_upper hc.1 hc.2
    rw [jsWhitespaceChar, ht]
    exact jsWhitespaceCode_of_lower (by omega) (by omega)
  · rw [jsLowerChar, if_neg hc]
    exact h

theorem normalizeEmail_idem (s : String) :
    normalizeEmail (normalizeEmail s) = normalizeEmail s := by
  show jsToLowerCase (jsStripWhitespace (jsToLowerCase (jsStripWhitespace s)))
    = jsToLowerCase (jsStripWhitespace s)
  rw [jsToLowerCase, jsStripWhitespace, jsToLowerCase, jsStripWhitespace]
  congr 1
  rw [List.filter_map]
  have hfilter :
      ((String.mk s.data).data.filter (fun c => !jsWhitespaceChar c)).filter
        ((fun c => !jsWhitespaceChar c) ∘ jsLowerChar) =
      (String.mk s.data).data.filter (fun c => !jsWhitespaceChar c) := by
    apply List.filter_eq_self.mpr
    intro c hc
    have hcp := (List.mem_filter.mp hc).2
    simp only [Function.comp, Bool.not_eq_true']
    exact jsLowerChar_not_ws (by simpa using hcp)
  rw [hfilter, List.map_map]
  exact List.map_congr_left fun c _ => jsLowerChar_idem c

/-- C2 counterexample: at a submission whose email, password and terms checks
all pass but whose `fullName` has fewer than 2 characters, the full
`signUpSchema` of `SignUp.jsx` rejects, so acceptance is not equivalent to the
three checks named by the claim. The library validators are instantiated with
the constantly-true function, which accepts this input's email and phone. -/
theorem signUpSchema_iff_counterexample :
    ¬(signUpSchemaFullAccepts (fun _ => true) (fun _ => true)
        { fullName := "A", phone := "+15555550123", email := "a@b.com",
          password := "123456", agreeToTerms := true } = true ↔
      ((fun (_ : String) => true) "a@b.com" = true ∧
        6 ≤ ("123456" : String).length ∧ true = true)) := by
  decide

/-- C2 (amended): the simplified sign-up schema accepts exactly when the email
check passes, the password has at least 6 characters and the terms are
accepted; each violated check contributes its field error message, a rejected
submission produces a non-empty error list, and `signUp` is not called on a
rejected submission. The full-form variant additionally requires a `fullName`
of at least 2 characters and a non-empty, valid phone number. -/
theorem signUpSchema_validation (emailValid : String → Bool)
    (f : SimpleSignUpInput) :
    ((signUpSchemaSimpleParse emailValid f).isSome = true ↔
      (emailValid f.email = true ∧ 6 ≤ f.password.length ∧
        f.agreeToTerms = true)) ∧
    (signUpSchemaSimpleParse emailValid f = none ↔
      signUpSchemaSimpleErrors emailValid f ≠ []) ∧
    (emailValid f.email = false →
      ("email", "Invalid email address") ∈
        signUpSchemaSimpleErrors emailValid f) ∧
    (f.password.length < 6 →
      ("password", "Password must be at least 6 characters") ∈
        signUpSchemaSimpleErrors emailValid f) ∧
    (f.agreeToTerms = false →
      ("agreeToTerms", "You must agree to the terms") ∈
        signUpSchemaSimpleErrors emailValid f) ∧
    (signUpSchemaSimpleParse emailValid f = none →
      handleSubmitSimple emailValid f = none) ∧
    (∀ (phoneValid : String → Bool) (g : SignUpForm),
      signUpSchemaFullAccepts phoneValid emailValid g = true ↔
        (2 ≤ g.fullName.length ∧ 1 ≤ g.phone.length ∧
          phoneValid g.phone = true ∧ emailValid g.email = true ∧
          6 ≤ g.password.length ∧ g.agreeToTerms = true)) := by
  refine ⟨?_, ?_, ?_, ?_, ?_, ?_, ?_⟩
  · rw [signUpSchemaSimpleParse]
    split_ifs with h
    · simp only [Option.isSome_some, true_iff]
      have h2 := h
      simp only [signUpSchemaSimpleAccepts, Bool.and_eq_true,
        decide_eq_true_eq] at h2
      tauto
    · simp only [Option.isSome_none, Bool.false_eq_true, false_iff]
      intro hcl
      exact h (by simp [signUpSchemaSimpleAccepts, Bool.and_eq_true,
        decide_eq_true_eq, hcl.1, hcl.2.1, hcl.2.2] )
  · rw [signUpSchemaSimpleParse, signUpSchemaSimpleErrors]
    rcases h1 : emailValid f.email <;>
      rcases h2 : f.agreeToTerms <;>
      by_cases h3 : 6 ≤ f.password.length <;>
      simp [signUpSchemaSimpleAccepts, h1, h2, h3]
  · intro h
    simp [signUpSchemaSimpleErrors, h]
  · intro h
    simp [signUpSchemaSimpleErrors, show ¬(6 ≤ f.password.length) by omega]
  · intro h
    simp [signUpSchemaSimpleErrors, h]
  · intro h
    rw [handleSubmitSimple, h]
  · intro phoneValid g
    simp [signUpSchemaFullAccepts, Bool.and_eq_true, decide_eq_true_eq,
      and_assoc]

theorem signUpSchema_validation_witness :
    ((signUpSchemaSimpleParse (fun _ => true)
        { email := "A@B.com", password := "123456",
          agreeToTerms := true }).isSome = true ↔
      ((fun (_ : String) => true) "A@B.com" = true ∧
        6 ≤ ("123456" : String).length ∧ true = true)) ∧
    (("password", "Password must be at least 6 characters") ∈
      signUpSchemaSimpleErrors (fun _ => true)
        { email := "A@B.com", password := "123", agreeToTerms := true }) ∧
    handleSubmitSimple (fun _ => true)
      { email := "A@B.com", password := "123", agreeToTerms := true } = none :=
  ⟨(signUpSchema_validation (fun _ => true)
      { email := "A@B.com", password := "123456", agreeToTerms := true }).1,
   (signUpSchema_validation (fun _ => true)
      { email := "A@B.com", password := "123",
        agreeToTerms := true }).2.2.2.1 (by decide),
   (signUpSchema_validation (fun _ => true)
      { email := "A@B.com", password := "123",
        agreeToTerms := true }).2.2.2.2.2.1 (by decide)⟩

/-- C10: the simplified schema's email normalization (strip all `\s`, then
lowercase) is idempotent, and therefore the payload `onSubmit` passes to
`signUp` — which re-applies the normalization — equals the schema-transformed
value itself. -/
theorem normalizeEmail_idempotent (s : String) (emailValid : String → Bool)
    (f d : SimpleSignUpInput) :
    normalizeEmail (normalizeEmail s) = normalizeEmail s ∧
    (signUpSchemaSimpleParse emailValid f = some d →
      handleSubmitSimple emailValid f = some d) := by
  refine ⟨normalizeEmail_idem s, ?_⟩
  intro h
  rw [handleSubmitSimple, h]
  have hd : d.email = normalizeEmail f.email := by
    rw [signUpSchemaSimpleParse] at h
    split_ifs at h
    cases h
    rfl
  have : normalizeEmail d.email = d.email := by
    rw [hd, normalizeEmail_idem]
  simp [this]

theorem normalizeEmail_idempotent_witness :
    normalizeEmail (normalizeEmail " A B@c.Com ") = normalizeEmail " A B@c.Com " ∧
    handleSubmitSimple (fun _ => true)
        { email := " A B@c.Com ", password := "123456", agreeToTerms := true } =
      some { email := "ab@c.com", password := "123456", agreeToTerms := true } := by
  refine ⟨(normalizeEmail_idempotent " A B@c.Com " (fun _ => true)
    { email := " A B@c.Com ", password := "123456", agreeToTerms := true }
    { email := "ab@c.com", password := "123456", agreeToTerms := true }).1,
    (normalizeEmail_idempotent " A B@c.Com " (fun _ => true)
    { email := " A B@c.Com ", password := "123456", agreeToTerms := true }
    { email := "ab@c.com", password := "123456", agreeToTerms := true }).2 ?_⟩
  decide

/-! ## C5: mapping backend validation errors onto form fields -/

/-- A backend validation error as consumed by the catch blocks of `onSubmit`:
an optional `path` listing field names and an optional `message`. -/
structure BackendFieldError where
  path : Option (List String)
  message : Option String
deriving DecidableEq

/-- Embedding of the catch block of the full `SignUp.jsx` `onSubmit`: for each
backend error whose `path` is present and contains `"phone"`, a
`setError("phone", ...)` call is made with the backend message or the fixed
fallback. The result lists the `setError` calls in order. -/
def signUpBackendErrorsFull (errs : List BackendFieldError) :
    List (String × String) :=
  errs.filterMap fun e =>
    match e.path with
    | some p =>
      if p.contains "phone" then
        some ("phone", jsOr e.message "Invalid phone number format")
      else
        none
    | none => none

/-- Embedding of the catch block of the simplified `onSubmit`: each backend
error may set an `email` error and a `password` error, with the backend
message or the corresponding fixed fallback. -/
def signUpBackendErrorsSimple (errs : List BackendFieldError) :
    List (String × String) :=
  (errs.map fun e =>
    match e.path with
    | some p =>
      (if p.contains "email" then
        [("email", jsOr e.message "Invalid email format")]
      else []) ++
      (if p.contains "password" then
        [("password", jsOr e.message "Invalid password format")]
      else [])
    | none => []).flatten

theorem filterMap_cons_append {α β : Type} (f : α → Option β) (a : α)
    (l : List α) :
    List.filterMap f (a :: l) = List.filterMap f [a] ++ List.filterMap f l := by
  cases h : f a <;> simp [List.filterMap_cons, h]

/-- C5: backend errors are processed one by one; an error whose path names a
recognized form field (`phone` in the full variant, `email`/`password` in the
simplified one) sets that field's error with the backend message, or the fixed
fallback when the message is absent (or empty, which JavaScript treats as
falsy); an error with no path or with a path naming no recognized field sets
no form error. -/
theorem signUpBackendErrorMapping (e : BackendFieldError)
    (rest : List BackendFieldError) (p : List String) :
    (signUpBackendErrorsFull (e :: rest) =
      signUpBackendErrorsFull [e] ++ signUpBackendErrorsFull rest) ∧
    (signUpBackendErrorsSimple (e :: rest) =
      signUpBackendErrorsSimple [e] ++ signUpBackendErrorsSimple rest) ∧
    (e.path = some p → p.contains "phone" = true →
      signUpBackendErrorsFull [e] =
        [("phone", jsOr e.message "Invalid phone number format")]) ∧
    (e.path = some p → p.contains "phone" = false →
      signUpBackendErrorsFull [e] = []) ∧
    (e.path = none →
      signUpBackendErrorsFull [e] = [] ∧ signUpBackendErrorsSimple [e] = []) ∧
    (e.path = some p → p.contains "email" = true →
      ("email", jsOr e.message "Invalid email format") ∈
        signUpBackendErrorsSimple [e]) ∧
    (e.path = some p → p.contains "password" = true →
      ("password", jsOr e.message "Invalid password format") ∈
        signUpBackendErrorsSimple [e]) ∧
    (e.path = some p → p.contains "email" = false →
      p.contains "password" = false → signUpBackendErrorsSimple [e] = []) ∧
    (e.message = none → ∀ d, jsOr e.message d = d) ∧
    (∀ s, s ≠ "" → e.message = some s → ∀ d, jsOr e.message d = s) := by
  refine ⟨?_, ?_, ?_, ?_, ?_, ?_, ?_, ?_, ?_, ?_⟩
  · exact filterMap_cons_append _ e rest
  · simp [signUpBackendErrorsSimple]
  · intro hp hc
    have hm : "phone" ∈ p := by simpa using hc
    simp [signUpBackendErrorsFull, hp, hm]
  · intro hp hc
    have hm : "phone" ∉ p := by simpa using hc
    simp [signUpBackendErrorsFull, hp, hm]
  · intro hp
    constructor
    · simp [signUpBackendErrorsFull, hp]
    · simp [signUpBackendErrorsSimple, hp]
  · intro hp hc
    have hm : "email" ∈ p := by simpa using hc
    simp [signUpBackendErrorsSimple, hp, hm]
  · intro hp hc
    have hm : "password" ∈ p := by simpa using hc
    simp [signUpBackendErrorsSimple, hp, hm]
  · intro hp hce hcp
    have hme : "email" ∉ p := by simpa using hce
    have hmp : "password" ∉ p := by simpa using hcp
    simp [signUpBackendErrorsSimple, hp, hme, hmp]
  · intro hm d
    rw [hm]
    rfl
  · intro s hs hm d
    rw [hm]
    exact if_neg hs

theorem signUpBackendErrorMapping_witness :
    (signUpBackendErrorsFull
        [{ path := some ["body", "phone"], message := none }] =
      [("phone", jsOr none "Invalid phone number format")]) ∧
    (signUpBackendErrorsSimple
        [{ path := some ["nickname"], message := some "bad" }] = []) ∧
    (("email", jsOr (some "Email taken") "Invalid email format") ∈
      signUpBackendErrorsSimple
        [{ path := some ["email"], message := some "Email taken" }]) ∧
    jsOr (some "Email taken") "Invalid email format" = "Email taken" :=
  ⟨(signUpBackendErrorMapping
      { path := some ["body", "phone"], message := none } []
      ["body", "phone"]).2.2.1 rfl (by decide),
   (signUpBackendErrorMapping
      { path := some ["nickname"], message := some "bad" } []
      ["nickname"]).2.2.2.2.2.2.2.1 rfl (by decide) (by decide),
   (signUpBackendErrorMapping
      { path := some ["email"], message := some "Email taken" } []
      ["email"]).2.2.2.2.2.1 rfl (by decide),
   (signUpBackendErrorMapping
      { path := some ["email"], message := some "Email taken" } []
      ["email"]).2.2.2.2.2.2.2.2.2 "Email taken" (by decide) rfl
      "Invalid email format"⟩

/-! ## C1: `loadAudioDurations` (`SoundList.jsx` lines 118–169) -/

/-- The first event that settles one audio element's metadata load: the
`loadedmetadata` event with the audio's duration, the `error` event, or the
5000 ms timeout firing first. -/
inductive MetaLoadEvent where
  | loaded (durationSeconds : ℚ)
  | errored
  | timedOut
deriving DecidableEq

/-- Embedding of one promise of a `loadAudioDurations` batch, at absolute
index `index = i + batchIndex`: a sound with a truthy duration other than
`"00:00"` resolves immediately and is untouched; otherwise `loadedmetadata`
stores `formatDuration(audio.duration)`, while the timeout and the error
handler store the fallback `"00:00"`. -/
def loadSoundDuration (env : Nat → MetaLoadEvent) (index : Nat)
    (sound : Sound) : Sound :=
  if sound.duration ≠ "" ∧ sound.duration ≠ "00:00" then
    sound
  else
    match env index with
    | .loaded secs => { sound with duration := formatDuration secs }
    | .errored => { sound with duration := "00:00" }
    | .timedOut => { sound with duration := "00:00" }

/-- The `setTimeout(..., 5000)` of `loadAudioDurations` is armed exactly for
the sounds that do not resolve immediately. -/
def timeoutMsFor (sound : Sound) : Option Nat :=
  if sound.duration ≠ "" ∧ sound.duration ≠ "00:00" then none else some 5000

/-- The slices `soundsWithDurations.slice(i, i + BATCH_SIZE)` visited by the
loop of `loadAudioDurations`, with `BATCH_SIZE = 5`. -/
def batchesOf5 : List α → List (List α)
  | [] => []
  | l@(_ :: _) => l.take 5 :: batchesOf5 (l.drop 5)
termination_by l => l.length
decreasing_by
  simp_all [List.length_drop]
  omega

/-- One batch of `loadAudioDurations`: every sound of the batch is settled
(concurrently, with one independent event each) before the next batch starts;
`start` is the loop index `i`. -/
def loadBatch (env : Nat → MetaLoadEvent) (start : Nat)
    (batch : List Sound) : List Sound :=
  batch.enum.map fun bp => loadSoundDuration env (start + bp.1) bp.2

/-- The batch loop of `loadAudioDurations`. -/
def loadBatches (env : Nat → MetaLoadEvent) : Nat → List (List Sound) → List Sound
  | _, [] => []
  | start, b :: bs => loadBatch env start b ++ loadBatches env (start + b.length) bs

/-- Embedding of `loadAudioDurations`: the final `soundsWithDurations` array
after all batches of 5 have been awaited. -/
def loadAudioDurations (env : Nat → MetaLoadEvent)
    (soundsList : List Sound) : List Sound :=
  loadBatches env 0 (batchesOf5 soundsList)

theorem batchesOf5_flatten (l : List α) : (batchesOf5 l).flatten = l := by
  induction l using batchesOf5.induct with
  | case1 => simp [batchesOf5]
  | case2 x xs ih =>
    rw [batchesOf5]
    simp only [List.flatten_cons, ih]
    exact List.take_append_drop 5 (x :: xs)

theorem batchesOf5_size (l : List α) : ∀ b ∈ batchesOf5 l, b.length ≤ 5 := by
  induction l using batchesOf5.induct with
  | case1 =>
    intro b hb
    simp [batchesOf5] at hb
  | case2 x xs ih =>
    intro b hb
    rw [batchesOf5] at hb
    rcases List.mem_cons.mp hb with h | h
    · subst h
      exact List.length_take_le 5 (x :: xs)
    · exact ih b h

theorem loadBatches_getElem (env : Nat → MetaLoadEvent)
    (bs : List (List Sound)) :
    ∀ (start i : Nat),
      (loadBatches env start bs)[i]? =
        (bs.flatten[i]?).map (loadSoundDuration env (start + i)) := by
  induction bs with
  | nil =>
    intro start i
    simp [loadBatches]
  | cons b rest ih =>
    intro start i
    rw [loadBatches, List.flatten_cons]
    by_cases hi : i < b.length
    · rw [List.getElem?_append_left (by simpa [loadBatch] using hi),
        List.getElem?_append_left hi]
      simp only [loadBatch, List.enum, List.getElem?_map,
        List.getElem?_enumFrom, Option.map_map]
      cases hb : b[i]? <;> simp [Function.comp]
    · push_neg at hi
      have hlen : (loadBatch env start b).length = b.length := by
        simp [loadBatch]
      rw [List.getElem?_append_right (by rw [hlen]; exact hi),
        List.getElem?_append_right hi, hlen,
        ih (start + b.length) (i - b.length),
        show start + b.length + (i - b.length) = start + i by omega]

theorem loadBatches_length (env : Nat → MetaLoadEvent)
    (bs : List (List Sound)) :
    ∀ start, (loadBatches env start bs).length = bs.flatten.length := by
  induction bs with
  | nil =>
    intro start
    rfl
  | cons b rest ih =>
    intro start
    rw [loadBatches, List.flatten_cons]
    simp [loadBatch, ih]

/-- C1: `loadAudioDurations` walks the list in order in batches of at most 5;
position `i` of the result is position `i` of the input settled with event
`env i`; the 5000 ms timeout is armed exactly for sounds whose duration is
missing (falsy) or `"00:00"`, and when it fires first that sound's duration
becomes the fallback `"00:00"`; sounds that already have a non-empty duration
other than `"00:00"` are left unchanged. -/
theorem loadAudioDurations_spec (env : Nat → MetaLoadEvent) (l : List Sound)
    (i : Nat) (s : Sound) :
    (batchesOf5 l).flatten = l ∧
    (∀ b ∈ batchesOf5 l, b.length ≤ 5) ∧
    (loadAudioDurations env l).length = l.length ∧
    (loadAudioDurations env l)[i]? = (l[i]?).map (loadSoundDuration env i) ∧
    ((s.duration = "" ∨ s.duration = "00:00") ↔ timeoutMsFor s = some 5000) ∧
    ((s.duration = "" ∨ s.duration = "00:00") →
      env i = MetaLoadEvent.timedOut →
      loadSoundDuration env i s = { s with duration := "00:00" }) ∧
    (s.duration ≠ "" → s.duration ≠ "00:00" → loadSoundDuration env i s = s) := by
  refine ⟨batchesOf5_flatten l, batchesOf5_size l, ?_, ?_, ?_, ?_, ?_⟩
  · rw [loadAudioDurations, loadBatches_length, batchesOf5_flatten]
  · rw [loadAudioDurations, loadBatches_getElem, batchesOf5_flatten]
    simp
  · rw [timeoutMsFor]
    constructor
    · intro h
      rw [if_neg (by tauto)]
    · intro h
      by_contra hc
      push_neg at hc
      rw [if_pos ⟨hc.1, hc.2⟩] at h
      cases h
  · intro h henv
    rw [loadSoundDuration, if_neg (by tauto), henv]
  · intro h1 h2
    rw [loadSoundDuration, if_pos ⟨h1, h2⟩]

theorem loadAudioDurations_spec_witness :
    (loadAudioDurations (fun _ => MetaLoadEvent.timedOut)
        [sampleDog, sampleCat])[0]? =
      ((([sampleDog, sampleCat] : List Sound)[0]?).map
        (loadSoundDuration (fun _ => MetaLoadEvent.timedOut) 0)) ∧
    loadSoundDuration (fun _ => MetaLoadEvent.timedOut) 0 sampleDog =
      { sampleDog with duration := "00:00" } ∧
    loadSoundDuration (fun _ => MetaLoadEvent.timedOut) 1 sampleCat =
      sampleCat :=
  ⟨(loadAudioDurations_spec (fun _ => MetaLoadEvent.timedOut)
      [sampleDog, sampleCat] 0 sampleDog).2.2.2.1,
   (loadAudioDurations_spec (fun _ => MetaLoadEvent.timedOut)
      [sampleDog, sampleCat] 0 sampleDog).2.2.2.2.2.1 (Or.inr rfl) rfl,
   (loadAudioDurations_spec (fun _ => MetaLoadEvent.timedOut)
      [sampleDog, sampleCat] 1 sampleCat).2.2.2.2.2.2 (by decide) (by decide)⟩

/-! ## C8: `toggleSelect` (`SoundList.jsx` lines 231–256) -/

/-- Embedding of `toggleSelect`. Admin users flip exactly the targeted sound's
`selected` flag. Non-admin users: if the targeted sound is found and selected
it is deselected in place; otherwise (not found, or found unselected) the
target becomes the only selected sound and everything else is deselected,
mirroring the `find` + truthiness test of the source. -/
def toggleSelect (isAdmin : Bool) (id : String) (sounds : List Sound) :
    List Sound :=
  if isAdmin then
    sounds.map fun sound =>
      if sound.id == id then { sound with selected := !sound.selected }
      else sound
  else
    if (match sounds.find? fun sound => sound.id == id with
        | some t => t.selected
        | none => false) then
      sounds.map fun sound =>
        if sound.id == id then { sound with selected := false } else sound
    else
      sounds.map fun sound =>
        if sound.id == id then { sound with selected := true }
        else { sound with selected := false }

/-- Number of selected sounds, as the `useEffect` on `sounds` computes
`selectedSounds` via `filter(selected)`. -/
def countSelected (sounds : List Sound) : Nat :=
  (sounds.filter fun sound => sound.selected).length

/-- A sequence of `toggleSelect` calls applied left to right. -/
def applyToggles (isAdmin : Bool) (ids : List String)
    (sounds : List Sound) : List Sound :=
  ids.foldl (fun acc id => toggleSelect isAdmin id acc) sounds

theorem countSelected_eq_countP (sounds : List Sound) :
    countSelected sounds = sounds.countP fun sound => sound.selected :=
  (List.countP_eq_length_filter _ _).symm

theorem toggleSelect_map_id (isAdmin : Bool) (id : String)
    (sounds : List Sound) :
    (toggleSelect isAdmin id sounds).map Sound.id = sounds.map Sound.id := by
  rw [toggleSelect]
  split
  · rw [List.map_map]
    exact List.map_congr_left fun s _ => by
      simp only [Function.comp]
      split <;> rfl
  · split
    · rw [List.map_map]
      exact List.map_congr_left fun s _ => by
        simp only [Function.comp]
        split <;> rfl
    · rw [List.map_map]
      exact List.map_congr_left fun s _ => by
        simp only [Function.comp]
        split <;> rfl

theorem countP_id_le_one_of_nodup (id : String) (sounds : List Sound)
    (hnd : (sounds.map Sound.id).Nodup) :
    (sounds.countP fun sound => sound.id == id) ≤ 1 := by
  induction sounds with
  | nil => simp
  | cons a rest ih =>
    rw [List.map_cons, List.nodup_cons] at hnd
    rw [List.countP_cons]
    by_cases ha : a.id == id
    · have hrest : (rest.countP fun sound => sound.id == id) = 0 := by
        rw [List.countP_eq_zero]
        intro s hs hsid
        apply hnd.1
        rw [List.mem_map]
        refine ⟨s, hs, ?_⟩
        have h1 : s.id = id := by simpa using hsid
        have h2 : a.id = id := by simpa using ha
        rw [h1, h2]
      rw [hrest, if_pos ha]
    · rw [if_neg ha]
      simpa using ih hnd.2

theorem toggleSelect_nonadmin_le_one (id : String) (sounds : List Sound)
    (hnd : (sounds.map Sound.id).Nodup)
    (hle : countSelected sounds ≤ 1) :
    countSelected (toggleSelect false id sounds) ≤ 1 := by
  rw [toggleSelect]
  simp only [Bool.false_eq_true, if_false]
  split
  · rw [countSelected_eq_countP, List.countP_map]
    calc (sounds.countP fun s =>
          (if s.id == id then { s with selected := false } else s).selected)
        ≤ sounds.countP fun s => s.selected := by
          apply List.countP_mono_left
          intro s _ hsel
          by_cases h : s.id == id <;> simp_all
      _ ≤ 1 := by rw [← countSelected_eq_countP]; exact hle
  · rw [countSelected_eq_countP, List.countP_map]
    calc (sounds.countP fun s =>
          (if s.id == id then { s with selected := true }
            else { s with selected := false }).selected)
        = sounds.countP fun s => s.id == id := by
          apply List.countP_congr
          intro s _
          by_cases h : s.id == id <;> simp [h]
      _ ≤ 1 := countP_id_le_one_of_nodup id sounds hnd

theorem applyToggles_nonadmin_le_one (ids : List String)
    (sounds : List Sound)
    (hnd : (sounds.map Sound.id).Nodup)
    (hle : countSelected sounds ≤ 1) :
    countSelected (applyToggles false ids sounds) ≤ 1 := by
  induction ids generalizing sounds with
  | nil => exact hle
  | cons id rest ih =>
    rw [applyToggles, List.foldl_cons]
    apply ih
    · rw [toggleSelect_map_id]
      exact hnd
    · exact toggleSelect_nonadmin_le_one id sounds hnd hle

/-- C8: for a non-admin user, starting from an all-unselected list with
pairwise-distinct ids, at most one sound is selected after any sequence of
`toggleSelect` calls; toggling the currently selected sound deselects it and
leaves every other sound unchanged, while toggling when the target is not
currently selected makes the target the only selected sound; for an admin
user, `toggleSelect` flips only the targeted sound's flag and leaves every
other sound unchanged. -/
theorem toggleSelect_spec (sounds : List Sound) (id : String) (i : Nat) :
    ((toggleSelect true id sounds).length = sounds.length ∧
     (∀ s, sounds[i]? = some s → s.id ≠ id →
        (toggleSelect true id sounds)[i]? = some s) ∧
     (∀ s, sounds[i]? = some s → s.id = id →
        (toggleSelect true id sounds)[i]? =
          some { s with selected := !s.selected })) ∧
    (∀ t, sounds.find? (fun s => s.id == id) = some t → t.selected = true →
      (∀ s, sounds[i]? = some s → s.id = id →
        (toggleSelect false id sounds)[i]? =
          some { s with selected := false }) ∧
      (∀ s, sounds[i]? = some s → s.id ≠ id →
        (toggleSelect false id sounds)[i]? = some s)) ∧
    ((∀ t, sounds.find? (fun s => s.id == id) = some t → t.selected = false) →
      ∀ s, sounds[i]? = some s →
        (toggleSelect false id sounds)[i]? =
          some { s with selected := s.id == id }) ∧
    ((sounds.map Sound.id).Nodup → (∀ s ∈ sounds, s.selected = false) →
      ∀ ids, countSelected (applyToggles false ids sounds) ≤ 1) := by
  refine ⟨⟨?_, ?_, ?_⟩, ?_, ?_, ?_⟩
  · rw [toggleSelect, if_pos rfl, List.length_map]
  · intro s hs hid
    rw [toggleSelect, if_pos rfl, List.getElem?_map, hs]
    simp only [Option.map_some']
    rw [if_neg (by simpa using hid)]
  · intro s hs hid
    rw [toggleSelect, if_pos rfl, List.getElem?_map, hs]
    simp only [Option.map_some']
    rw [if_pos (by simpa using hid)]
  · intro t hfind hsel
    have hcond : (match sounds.find? fun s => s.id == id with
        | some t => t.selected
        | none => false) = true := by
      rw [hfind]
      exact hsel
    constructor
    · intro s hs hid
      rw [toggleSelect, if_neg (by decide), if_pos hcond,
        List.getElem?_map, hs]
      simp only [Option.map_some']
      rw [if_pos (by simpa using hid)]
    · intro s hs hid
      rw [toggleSelect, if_neg (by decide), if_pos hcond,
        List.getElem?_map, hs]
      simp only [Option.map_some']
      rw [if_neg (by simpa using hid)]
  · intro hnotsel s hs
    have hcond : (match sounds.find? fun s => s.id == id with
        | some t => t.selected
        | none => false) = false := by
      cases hf : sounds.find? fun s => s.id == id with
      | none => rfl
      | some t => exact hnotsel t hf
    rw [toggleSelect, if_neg (by decide),
      if_neg (by rw [hcond]; exact Bool.false_ne_true),
      List.getElem?_map, hs]
    simp only [Option.map_some']
    by_cases hid : s.id == id
    · rw [if_pos hid]
      simp [hid]
    · rw [if_neg hid]
      simp only [Option.some_inj]
      have : (s.id == id) = false := by simpa using hid
      rw [this]
  · intro hnd hunsel ids
    apply applyToggles_nonadmin_le_one ids sounds hnd
    rw [countSelected_eq_countP, List.countP_eq_zero.mpr]
    · omega
    · intro s hs
      simp [hunsel s hs]

/-- C8 counterexample: when two sounds share an id, toggling that id from the
all-unselected list selects both of them (the `else` branch of the non-admin
path sets `selected` to `sound.id === id` on every entry), so the at-most-one
invariant fails for lists with duplicate ids. -/
theorem toggleSelect_dup_id_counterexample :
    ¬ countSelected (applyToggles false ["s1"]
        [sampleDog, { sampleCat with id := "s1" }]) ≤ 1 := by
  decide

theorem toggleSelect_spec_witness :
    ((toggleSelect true "s1" [sampleDog, sampleCat]).length = 2 ∧
     (toggleSelect true "s1" [sampleDog, sampleCat])[1]? = some sampleCat ∧
     (toggleSelect true "s1" [sampleDog, sampleCat])[0]? =
       some { sampleDog with selected := !sampleDog.selected }) ∧
    ((toggleSelect false "s1" [sampleDog, sampleCat])[0]? =
      some { sampleDog with selected := (sampleDog.id == "s1") }) ∧
    countSelected
      (applyToggles false ["s1", "s2", "s1"] [sampleDog, sampleCat]) ≤ 1 := by
  refine ⟨⟨?_, ?_, ?_⟩, ?_, ?_⟩
  · exact (toggleSelect_spec [sampleDog, sampleCat] "s1" 0).1.1
  · exact (toggleSelect_spec [sampleDog, sampleCat] "s1" 1).1.2.1 sampleCat
      (by decide) (by decide)
  · exact (toggleSelect_spec [sampleDog, sampleCat] "s1" 0).1.2.2 sampleDog
      (by decide) (by decide)
  · exact (toggleSelect_spec [sampleDog, sampleCat] "s1" 0).2.2.1
      (by decide) sampleDog (by decide)
  · exact (toggleSelect_spec [sampleDog, sampleCat] "s1" 0).2.2.2
      (by decide) (by decide) ["s1", "s2", "s1"]

end SoundExplores
